import Mathlib

/-!
Verification of `create_admin_levels.py`: a single-run pipeline that reads a
district-level (Admin 2) boundary shapefile, reprojects it to EPSG:4326, and
derives Admin 0 / Admin 1 / Admin 2 / combined "ALL" datasets via
pandas-style dissolve, column selection and concatenation, finally writing
the shapefiles and repackaging them into a zip archive from inside a
temporary scratch directory.

The shallow embedding below follows the source line by line:
* a GeoDataFrame is a `Dataset`: an ordered list of rows, a dataset-level
  list of non-geometry column names, and a CRS tag.  Attribute values are
  `Option String` (`none` embeds pandas missing values / NaN; integer values
  such as the `admLevel` tag are embedded via their decimal string).
* geometry is abstract: a `Finset Nat` of "points", so that geometric union
  is `Finset` union; `to_crs` applies an arbitrary coordinate transform
  (a parameter of the embedding) and retags the CRS.
* `dissolve(by=b, aggfunc='first')` followed by `reset_index()` is
  `dissolveFirst`: pandas `groupby` drops rows whose grouping key is null,
  sorts the distinct keys ascending, and the `first` aggregation takes the
  first non-null value of each remaining column within the group in source
  row order; the geometries of a group are unioned.
* column selection `df[cols]`, `df.copy()`, column assignment
  `df['admLevel'] = n` and `pd.concat(..., ignore_index=True)` are
  `select`, identity, `assignCol` and `deriveCombined`.
* the `tempfile.TemporaryDirectory` context manager, the zip extraction,
  the shapefile writes and the final packaging loop are modelled over an
  explicit file-system state `FS` (a list of existing paths).
-/

/-- Abstract geometry: a polygon/multipolygon is a set of atomic points, so
that the geometric union of the source's `dissolve` is set union. -/
abbrev Geom := Finset Nat

/-- One GeoDataFrame row: named attribute values (an association list in
column order, `none` = missing/NaN) plus one geometry. -/
structure Row where
  attrs : List (String × Option String)
  geom : Geom
deriving DecidableEq

/-- A GeoDataFrame: dataset-level column list (non-geometry columns, in
order), the rows, and the coordinate reference system tag. -/
structure Dataset where
  cols : List String
  rows : List Row
  crs : String
deriving DecidableEq

/-- The value a row holds in column `c` (`none` if the column is absent for
this row or holds a missing value). -/
def colValue (r : Row) (c : String) : Option String :=
  (List.lookup c r.attrs).join

/-- Pandas `first` aggregation over a group: the first non-null value of
column `c` among the rows, in row order (`none` when all are null). -/
def firstNonNull (rs : List Row) (c : String) : Option String :=
  rs.findSome? (fun r => colValue r c)

/-- The members of the dissolve group of key `k`: the rows whose grouping
column `b` holds exactly the value `k`, in source row order. -/
def groupRows (rs : List Row) (b k : String) : List Row :=
  rs.filter (fun r => colValue r b == some k)

/-- The distinct non-null values of the grouping column `b`, in the order
pandas `groupby(sort=True)` enumerates the groups: ascending.  Rows whose
key is null are dropped (`groupby(dropna=True)`, the default used by
`GeoDataFrame.dissolve`). -/
def keysList (rs : List Row) (b : String) : List String :=
  List.insertionSort (fun a c => a ≤ c) ((rs.filterMap (fun r => colValue r b)).dedup)

/-- Union of the geometries of a list of rows (`unary_union` of the group,
and also the total extent of a dataset). -/
def unionGeoms (rs : List Row) : Geom :=
  rs.foldr (fun r g => r.geom ∪ g) ∅

/-- The single output row the dissolve produces for group key `k`: after
`reset_index()` the key is the first column again, every other dataset
column is aggregated with `first` (first non-null within the group), and
the geometry is the union of the group's geometries. -/
def dissolvedRow (d : Dataset) (b k : String) : Row :=
  { attrs := (b, some k) ::
      (d.cols.filter (fun c => !(c == b))).map
        (fun c => (c, firstNonNull (groupRows d.rows b k) c)),
    geom := unionGeoms (groupRows d.rows b k) }

/-- `gdf.dissolve(by=b, aggfunc='first').reset_index()` (source lines
95-97 for `ADM0_PCODE` and 105-107 for `ADM1_PCODE`). -/
def dissolveFirst (b : String) (d : Dataset) : Dataset :=
  { cols := b :: d.cols.filter (fun c => !(c == b)),
    rows := (keysList d.rows b).map (fun k => dissolvedRow d b k),
    crs := d.crs }

/-- Row projection for `df[cols]`: keep the named columns in the given
order (geometry is modelled separately and every selection in the source
includes `'geometry'`, so the geometry is kept unchanged). -/
def selectRow (cols : List String) (r : Row) : Row :=
  { attrs := cols.map (fun c => (c, colValue r c)), geom := r.geom }

/-- `df[cols]` column selection (with `'geometry'` always among the
selected columns in the source). -/
def select (cols : List String) (d : Dataset) : Dataset :=
  { cols := cols, rows := d.rows.map (selectRow cols), crs := d.crs }

/-- Pandas column assignment `df[c] = v` on one row: overwrite the value in
place when the column exists, otherwise append the new column at the end. -/
def setCol (c : String) (v : Option String) (r : Row) : Row :=
  { attrs :=
      if r.attrs.any (fun p => p.1 == c) then
        r.attrs.map (fun p => if p.1 == c then (p.1, v) else p)
      else
        r.attrs ++ [(c, v)],
    geom := r.geom }

/-- `df.copy()` followed by `df[c] = v` (source lines 124-131, with
`v = some (toString n)` for the integer level `n`). -/
def assignCol (c : String) (v : Option String) (d : Dataset) : Dataset :=
  { cols := if d.cols.contains c then d.cols else d.cols ++ [c],
    rows := d.rows.map (setCol c v),
    crs := d.crs }

/-- Ordered union of two column lists, as `pd.concat` computes the columns
of the combined frame. -/
def unionCols (a b : List String) : List String :=
  a ++ b.filter (fun c => !(a.contains c))

/-- `gdf.to_crs(target)` (source line 88): transform every geometry with
the (abstract) coordinate conversion and retag the CRS. -/
def to_crs (transform : Geom → Geom) (target : String) (d : Dataset) : Dataset :=
  { cols := d.cols,
    rows := d.rows.map (fun r => { attrs := r.attrs, geom := transform r.geom }),
    crs := target }

/-- Source lines 95-98: dissolve by `ADM0_PCODE`, reset the index, select
the national fields. -/
def deriveAdmin0 (gdf : Dataset) : Dataset :=
  select ["ADM0_PCODE", "ADM0_EN"] (dissolveFirst "ADM0_PCODE" gdf)

/-- Source lines 105-108: dissolve by `ADM1_PCODE`, reset the index, select
the hierarchical national + regional fields. -/
def deriveAdmin1 (gdf : Dataset) : Dataset :=
  select ["ADM0_PCODE", "ADM0_EN", "ADM1_PCODE", "ADM1_EN", "ADM1_TYPE"]
    (dissolveFirst "ADM1_PCODE" gdf)

/-- The hierarchical Admin-2 column subset of source line 115 (geometry is
modelled separately and is also selected there). -/
def adm2Cols : List String :=
  ["ADM0_PCODE", "ADM0_EN", "ADM1_PCODE", "ADM1_EN", "ADM1_TYPE",
   "ADM2_PCODE", "ADM2_EN", "ADM2_TYPE"]

/-- Source line 115: no dissolve, just column selection (and `.copy()`). -/
def deriveAdmin2 (gdf : Dataset) : Dataset :=
  select adm2Cols gdf

/-- Source lines 124-134: tag each level with an `admLevel` column (0, 1, 2
embedded as decimal strings) and concatenate the three frames with
`ignore_index=True`. -/
def deriveCombined (a0 a1 a2 : Dataset) : Dataset :=
  { cols := unionCols (unionCols (assignCol "admLevel" (some "0") a0).cols
        (assignCol "admLevel" (some "1") a1).cols)
      (assignCol "admLevel" (some "2") a2).cols,
    rows := (assignCol "admLevel" (some "0") a0).rows ++
      (assignCol "admLevel" (some "1") a1).rows ++
      (assignCol "admLevel" (some "2") a2).rows,
    crs := a0.crs }

/-- The four derived datasets of one run. -/
structure Levels where
  adm0 : Dataset
  adm1 : Dataset
  adm2 : Dataset
  all_levels : Dataset


/-- Source lines 87-134: reproject the source dataset once to EPSG:4326,
then derive all four output datasets from the reprojected frame. -/
def buildLevels (src : Dataset) (transform : Geom → Geom) : Levels :=
  { adm0 := deriveAdmin0 (to_crs transform "EPSG:4326" src),
    adm1 := deriveAdmin1 (to_crs transform "EPSG:4326" src),
    adm2 := deriveAdmin2 (to_crs transform "EPSG:4326" src),
    all_levels := deriveCombined
      (deriveAdmin0 (to_crs transform "EPSG:4326" src))
      (deriveAdmin1 (to_crs transform "EPSG:4326" src))
      (deriveAdmin2 (to_crs transform "EPSG:4326" src)) }

/-! ## File-system model for the temporary directory and the packager -/

/-- The file system: the list of paths that currently exist. -/
abbrev FS := List String

/-- Whether a path currently exists (`Path.exists` on source line 161). -/
def pathMem (fs : FS) (p : String) : Bool :=
  fs.contains p

/-- Whether the first character list leads (starts) the second. -/
def listLeads : List Char → List Char → Bool
  | [], _ => true
  | _ :: _, [] => false
  | a :: as, b :: bs => a == b && listLeads as bs

/-- Whether `p` is the directory `dir` itself or lies underneath it. -/
def pathInDir (dir p : String) : Bool :=
  p == dir || listLeads (dir.data ++ ['/']) p.data

/-- Recursive removal of a directory and all of its contents, as the exit of
`tempfile.TemporaryDirectory` performs it. -/
def removeTree (dir : String) (fs : FS) : FS :=
  fs.filter (fun p => !pathInDir dir p)

/-- `with tempfile.TemporaryDirectory() as temp_dir:` (source line 65): the
directory is created, the body runs (returning either a value or an error,
and the file system it left behind), and the directory is removed with all
its contents no matter how the body ended. -/
def withTemporaryDirectory {α : Type} (tempDir : String)
    (body : String → FS → Except String α × FS) (fs : FS) :
    Except String α × FS :=
  ((body tempDir (tempDir :: fs)).1,
   removeTree tempDir (body tempDir (tempDir :: fs)).2)

/-- The four shapefile base names of source line 158. -/
def adminBases : List String :=
  ["mdg_adm0", "mdg_adm1", "mdg_adm2", "mdg_adm_ALL"]

/-- The recognized shapefile component extensions of source line 159. -/
def zipExts : List String :=
  [".shp", ".shx", ".dbf", ".prj", ".cpg", ".sbn", ".sbx", ".shp.xml"]

/-- The component files `GeoDataFrame.to_file` writes for one base name
(source lines 144-147). -/
def shapefileParts (tempDir base : String) : List String :=
  [".shp", ".shx", ".dbf", ".prj", ".cpg"].map
    (fun ext => tempDir ++ "/" ++ base ++ ext)

/-- Source lines 156-163: for each base name and each recognized
extension, the component file is added to the output archive (under its
base filename) exactly when it exists; a missing file is skipped. -/
def packageZip (tempDir : String) (fs : FS) : List String :=
  adminBases.flatMap (fun base =>
    zipExts.filterMap (fun ext =>
      if pathMem fs (tempDir ++ "/" ++ base ++ ext) then some (base ++ ext)
      else none))

/-- The run's environment: the input archive's entry list (`none` embeds a
missing/corrupt `SHP_ADM2_UPDATE_dante.zip`), the parse result of the
shapefile (`none` embeds malformed geometry/attribute data), and the
abstract EPSG:3395 → EPSG:4326 coordinate conversion. -/
structure Env where
  archive : Option (List String)
  source : Option Dataset
  transform : Geom → Geom

/-- Fixed relative path of the input shapefile (source line 74). -/
def shpRelPath : String :=
  "SHP_ADM2_UPDATE/mdg_bnd_adm2_dis_pam.shp"

/-- Fixed output archive name (source line 62). -/
def outputZipName : String :=
  "SHP_ADM2_UPDATE.zip"

/-- The body of the `with` block (source lines 68-163): extract the input
archive into the scratch directory, read the shapefile, derive the four
levels, write their component files into the scratch directory, and create
the output zip archive; each fallible stage aborts the whole body. -/
def mainBody (env : Env) (tempDir : String) (fs : FS) :
    Except String (List String) × FS :=
  match env.archive with
  | none => (Except.error "input zip missing or unreadable", fs)
  | some entries =>
    let fs1 := fs ++ entries.map (fun e => tempDir ++ "/" ++ e)
    if pathMem fs1 (tempDir ++ "/" ++ shpRelPath) then
      match env.source with
      | none => (Except.error "shapefile data malformed", fs1)
      | some src =>
        let _levels := buildLevels src env.transform
        let fs2 := fs1 ++ (adminBases.map (shapefileParts tempDir)).flatten
        let fs3 := outputZipName :: fs2
        (Except.ok (packageZip tempDir fs3), fs3)
    else (Except.error "shapefile not found in archive", fs1)

/-- One full run of `main` (source lines 45-172): the whole pipeline runs
inside the temporary-directory context manager. -/
def runMain (tempDir : String) (env : Env) (fs : FS) :
    Except String (List String) × FS :=
  withTemporaryDirectory tempDir (mainBody env) fs

/-! ## Concrete example datasets used by counterexamples and witnesses -/

/-- A district row builder over the full input schema. -/
def mkRow (a0p a0e a1p a1e a1t a2p a2e a2t : Option String) (g : Geom) : Row :=
  { attrs := [("ADM0_PCODE", a0p), ("ADM0_EN", a0e),
      ("ADM1_PCODE", a1p), ("ADM1_EN", a1e), ("ADM1_TYPE", a1t),
      ("ADM2_PCODE", a2p), ("ADM2_EN", a2e), ("ADM2_TYPE", a2t)],
    geom := g }

/-- Two districts of one region `A`; the first has a missing `ADM1_EN`. -/
def exNullFirst : Dataset :=
  { cols := adm2Cols,
    rows := [mkRow (some "MG") (some "Madagascar") (some "A") none
        (some "Region") (some "A1") (some "d1") (some "District") {0},
      mkRow (some "MG") (some "Madagascar") (some "A") (some "X")
        (some "Region") (some "A2") (some "d2") (some "District") {1}],
    crs := "EPSG:4326" }

/-- First district of region `B`: its `ADM1_EN` value is missing. -/
def rowB1 : Row :=
  mkRow (some "MG") (some "Madagascar") (some "B") none
    (some "Region") (some "B1") (some "d1") (some "District") {2}

/-- Second district of region `B`, with `ADM1_EN` present. -/
def rowB2 : Row :=
  mkRow (some "MG") (some "Madagascar") (some "B") (some "Y")
    (some "Region") (some "B2") (some "d2") (some "District") {3}

/-- Same shape as `exNullFirst`, used by the dissolve-skips-null claim. -/
def exSkipNull : Dataset :=
  { cols := adm2Cols, rows := [rowB1, rowB2], crs := "EPSG:4326" }

/-- One district whose `ADM1_PCODE` is missing: its row is dropped by the
dissolve's group-by. -/
def exNullKey : Dataset :=
  { cols := adm2Cols,
    rows := [mkRow (some "MG") (some "Madagascar") none (some "NoRegion")
        (some "Region") (some "C1") (some "d1") (some "District") {0}],
    crs := "EPSG:4326" }

/-- Two districts in two regions, region codes out of order. -/
def exTwoRegions : Dataset :=
  { cols := adm2Cols,
    rows := [mkRow (some "MG") (some "Madagascar") (some "B") (some "RegB")
        (some "Region") (some "B1") (some "d1") (some "District") {0},
      mkRow (some "MG") (some "Madagascar") (some "A") (some "RegA")
        (some "Region") (some "A1") (some "d2") (some "District") {1}],
    crs := "EPSG:4326" }

/-- A single national code `MG` next to a district whose `ADM0_PCODE` is
missing: the dissolve silently drops the second district's geometry. -/
def exNullNational : Dataset :=
  { cols := adm2Cols,
    rows := [mkRow (some "MG") (some "Madagascar") (some "A") (some "RegA")
        (some "Region") (some "A1") (some "d1") (some "District") {0},
      mkRow none (some "Madagascar") (some "A") (some "RegA")
        (some "Region") (some "A2") (some "d2") (some "District") {1}],
    crs := "EPSG:4326" }

/-- Two districts, both with national code `MG`. -/
def exOneNation : Dataset :=
  { cols := adm2Cols,
    rows := [mkRow (some "MG") (some "Madagascar") (some "A") (some "RegA")
        (some "Region") (some "A1") (some "d1") (some "District") {0, 1},
      mkRow (some "MG") (some "Madagascar") (some "B") (some "RegB")
        (some "Region") (some "B1") (some "d2") (some "District") {2}],
    crs := "EPSG:4326" }

/-- Single-record datasets standing for already-derived levels. -/
def wAdm0 : Dataset :=
  { cols := ["ADM0_PCODE", "ADM0_EN"],
    rows := [⟨[("ADM0_PCODE", some "MG"), ("ADM0_EN", some "Madagascar")], {0, 1}⟩],
    crs := "EPSG:4326" }

/-- Single-record Admin-1 stand-in dataset. -/
def wAdm1 : Dataset :=
  { cols := ["ADM0_PCODE", "ADM0_EN", "ADM1_PCODE", "ADM1_EN", "ADM1_TYPE"],
    rows := [⟨[("ADM0_PCODE", some "MG"), ("ADM0_EN", some "Madagascar"),
      ("ADM1_PCODE", some "A"), ("ADM1_EN", some "RegA"), ("ADM1_TYPE", some "Region")],
      {0, 1}⟩],
    crs := "EPSG:4326" }

/-- Single-record Admin-2 stand-in dataset. -/
def wAdm2 : Dataset :=
  { cols := adm2Cols,
    rows := [mkRow (some "MG") (some "Madagascar") (some "A") (some "RegA")
      (some "Region") (some "A1") (some "d1") (some "District") {0}],
    crs := "EPSG:4326" }

/-- An environment whose input archive is missing: the run aborts at the
very first stage. -/
def envMissingArchive : Env :=
  { archive := none, source := none, transform := id }

/-! ## Helper lemmas on lookups, selection and dissolve -/

theorem lookup_map_mk (f : String → Option String) (l : List String) (c : String)
    (h : c ∈ l) : List.lookup c (l.map (fun x => (x, f x))) = some (f c) := by
  induction l with
  | nil => cases h
  | cons a t ih =>
    by_cases hca : c = a
    · subst hca
      simp [List.lookup]
    · have hb : (c == a) = false := beq_eq_false_iff_ne.mpr hca
      have ht : c ∈ t := by
        rcases List.mem_cons.mp h with h1 | h1
        · exact absurd h1 hca
        · exact h1
      simpa [List.lookup, hb] using ih ht

theorem lookup_map_mk_none (f : String → Option String) (l : List String) (c : String)
    (h : c ∉ l) : List.lookup c (l.map (fun x => (x, f x))) = none := by
  induction l with
  | nil => rfl
  | cons a t ih =>
    have hca : ¬ c = a := fun hc => h (hc ▸ List.mem_cons_self a t)
    have hb : (c == a) = false := beq_eq_false_iff_ne.mpr hca
    have ht : c ∉ t := fun hc => h (List.mem_cons_of_mem a hc)
    simpa [List.lookup, hb] using ih ht

theorem colValue_selectRow (cols : List String) (r : Row) (c : String) (h : c ∈ cols) :
    colValue (selectRow cols r) c = colValue r c := by
  show (List.lookup c (cols.map (fun x => (x, colValue r x)))).join = colValue r c
  rw [lookup_map_mk (fun x => colValue r x) cols c h]
  rfl

theorem attrs_keys_selectRow (cols : List String) (r : Row) :
    (selectRow cols r).attrs.map Prod.fst = cols := by
  show (cols.map (fun x => (x, colValue r x))).map Prod.fst = cols
  rw [List.map_map]
  exact List.map_id cols

theorem colValue_dissolvedRow_key (d : Dataset) (b k : String) :
    colValue (dissolvedRow d b k) b = some k := by
  simp [colValue, dissolvedRow, List.lookup]

theorem colValue_dissolvedRow (d : Dataset) (b k c : String) (hc : ¬ c = b)
    (hcol : c ∈ d.cols) :
    colValue (dissolvedRow d b k) c = firstNonNull (groupRows d.rows b k) c := by
  have hmem : c ∈ d.cols.filter (fun x => !(x == b)) := by
    simp [List.mem_filter, hcol, hc]
  have hb : (c == b) = false := beq_eq_false_iff_ne.mpr hc
  simp [colValue, dissolvedRow, List.lookup, hb,
    lookup_map_mk (fun x => firstNonNull (groupRows d.rows b k) x) _ c hmem]

theorem mem_keysList (rs : List Row) (b k : String) :
    k ∈ keysList rs b ↔ some k ∈ rs.map (fun r => colValue r b) := by
  unfold keysList
  rw [(List.perm_insertionSort _ _).mem_iff, List.mem_dedup]
  simp [List.mem_filterMap, List.mem_map]

theorem nodup_keysList (rs : List Row) (b : String) : (keysList rs b).Nodup :=
  (List.perm_insertionSort _ _).nodup_iff.mpr (List.nodup_dedup _)

theorem length_keysList (rs : List Row) (b : String) :
    (keysList rs b).length = ((rs.filterMap (fun r => colValue r b)).dedup).length :=
  (List.perm_insertionSort _ _).length_eq

theorem sorted_keysList (rs : List Row) (b : String) :
    List.Sorted (fun a c => a ≤ c) (keysList rs b) :=
  List.sorted_insertionSort _ _

theorem mem_unionGeoms (rs : List Row) (x : Nat) :
    x ∈ unionGeoms rs ↔ ∃ r ∈ rs, x ∈ r.geom := by
  induction rs with
  | nil => simp [unionGeoms]
  | cons a t ih =>
    have hcons : unionGeoms (a :: t) = a.geom ∪ unionGeoms t := rfl
    rw [hcons]
    simp only [Finset.mem_union, ih, List.mem_cons]
    constructor
    · rintro (hx | ⟨r, hr, hx⟩)
      · exact ⟨a, Or.inl rfl, hx⟩
      · exact ⟨r, Or.inr hr, hx⟩
    · rintro ⟨r, hr | hr, hx⟩
      · exact Or.inl (hr ▸ hx)
      · exact Or.inr ⟨r, hr, hx⟩

theorem unionGeoms_map (f : Row → Row) (rs : List Row) (h : ∀ r, (f r).geom = r.geom) :
    unionGeoms (rs.map f) = unionGeoms rs := by
  induction rs with
  | nil => rfl
  | cons a t ih =>
    show (f a).geom ∪ unionGeoms (t.map f) = a.geom ∪ unionGeoms t
    rw [h a, ih]

theorem map_key_dissolveFirst (d : Dataset) (b : String) :
    (dissolveFirst b d).rows.map (fun r => colValue r b) = (keysList d.rows b).map some := by
  show ((keysList d.rows b).map (fun k => dissolvedRow d b k)).map (fun r => colValue r b) =
    (keysList d.rows b).map some
  rw [List.map_map]
  exact List.map_congr_left (fun k _ => colValue_dissolvedRow_key d b k)

theorem map_key_deriveAdmin1 (d : Dataset) :
    (deriveAdmin1 d).rows.map (fun r => colValue r "ADM1_PCODE") =
      (keysList d.rows "ADM1_PCODE").map some := by
  show ((dissolveFirst "ADM1_PCODE" d).rows.map
      (selectRow ["ADM0_PCODE", "ADM0_EN", "ADM1_PCODE", "ADM1_EN", "ADM1_TYPE"])).map
      (fun r => colValue r "ADM1_PCODE") = (keysList d.rows "ADM1_PCODE").map some
  rw [List.map_map]
  refine (List.map_congr_left ?_).trans (map_key_dissolveFirst d "ADM1_PCODE")
  intro r _
  exact colValue_selectRow _ r "ADM1_PCODE" (by decide)

theorem map_key_deriveAdmin0 (d : Dataset) :
    (deriveAdmin0 d).rows.map (fun r => colValue r "ADM0_PCODE") =
      (keysList d.rows "ADM0_PCODE").map some := by
  show ((dissolveFirst "ADM0_PCODE" d).rows.map
      (selectRow ["ADM0_PCODE", "ADM0_EN"])).map
      (fun r => colValue r "ADM0_PCODE") = (keysList d.rows "ADM0_PCODE").map some
  rw [List.map_map]
  refine (List.map_congr_left ?_).trans (map_key_dissolveFirst d "ADM0_PCODE")
  intro r _
  exact colValue_selectRow _ r "ADM0_PCODE" (by decide)

theorem lookup_cons_eq (c k : String) (w : Option String)
    (t : List (String × Option String)) (h : c = k) :
    List.lookup c ((k, w) :: t) = some w := by
  subst h
  simp [List.lookup]

theorem lookup_cons_ne (c k : String) (w : Option String)
    (t : List (String × Option String)) (h : ¬ c = k) :
    List.lookup c ((k, w) :: t) = List.lookup c t := by
  have hb : (c == k) = false := beq_eq_false_iff_ne.mpr h
  simp [List.lookup, hb]

theorem lookup_map_overwrite_self (c : String) (v : Option String)
    (l : List (String × Option String)) (h : l.any (fun p => p.1 == c) = true) :
    List.lookup c (l.map (fun p => if p.1 == c then (p.1, v) else p)) = some v := by
  induction l with
  | nil => cases h
  | cons a t ih =>
    obtain ⟨k, w⟩ := a
    rw [List.map_cons]
    by_cases hkc : k = c
    · have hb : ((k, w).1 == c) = true := beq_iff_eq.mpr hkc
      rw [if_pos hb]
      exact lookup_cons_eq c k v _ hkc.symm
    · have hb : ¬ ((k, w).1 == c) = true := by
        simpa using hkc
      rw [if_neg hb]
      have ht : t.any (fun p => p.1 == c) = true := by
        have hb' : ((k, w).1 == c) = false := beq_eq_false_iff_ne.mpr hkc
        simpa [List.any_cons, hb'] using h
      rw [lookup_cons_ne c k w _ (fun e => hkc e.symm)]
      exact ih ht

theorem lookup_map_overwrite_ne (c c' : String) (v : Option String)
    (l : List (String × Option String)) (h : ¬ c' = c) :
    List.lookup c' (l.map (fun p => if p.1 == c then (p.1, v) else p)) =
      List.lookup c' l := by
  induction l with
  | nil => rfl
  | cons a t ih =>
    obtain ⟨k, w⟩ := a
    rw [List.map_cons]
    by_cases hkc : k = c
    · have hb : ((k, w).1 == c) = true := beq_iff_eq.mpr hkc
      rw [if_pos hb]
      have hck : ¬ c' = k := fun e => h (e.trans hkc)
      rw [lookup_cons_ne c' k v _ hck, lookup_cons_ne c' k w _ hck]
      exact ih
    · have hb : ¬ ((k, w).1 == c) = true := by
        simpa using hkc
      rw [if_neg hb]
      by_cases hck : c' = k
      · rw [lookup_cons_eq c' k w _ hck, lookup_cons_eq c' k w _ hck]
      · rw [lookup_cons_ne c' k w _ hck, lookup_cons_ne c' k w _ hck]
        exact ih

theorem lookup_eq_none_of_any_false (c : String) (l : List (String × Option String))
    (h : l.any (fun p => p.1 == c) = false) : List.lookup c l = none := by
  induction l with
  | nil => rfl
  | cons a t ih =>
    obtain ⟨k, w⟩ := a
    rw [List.any_cons, Bool.or_eq_false_iff] at h
    have hck : ¬ c = k := fun e => by
      have : (k == c) = true := beq_iff_eq.mpr e.symm
      rw [h.1] at this
      cases this
    rw [lookup_cons_ne c k w _ hck]
    exact ih h.2

theorem colValue_setCol_self (c : String) (v : Option String) (r : Row) :
    colValue (setCol c v r) c = v := by
  unfold setCol
  by_cases h : r.attrs.any (fun p => p.1 == c) = true
  · show (List.lookup c _).join = v
    simp only [h, if_true]
    rw [lookup_map_overwrite_self c v r.attrs h]
    rfl
  · have h' : r.attrs.any (fun p => p.1 == c) = false := Bool.eq_false_iff.mpr h
    show (List.lookup c _).join = v
    simp only [h', Bool.false_eq_true, if_false]
    rw [List.lookup_append, lookup_eq_none_of_any_false c r.attrs h']
    simp [List.lookup]

theorem colValue_setCol_ne (c c' : String) (v : Option String) (r : Row)
    (h : ¬ c' = c) : colValue (setCol c v r) c' = colValue r c' := by
  unfold setCol
  by_cases ha : r.attrs.any (fun p => p.1 == c) = true
  · show (List.lookup c' _).join = colValue r c'
    simp only [ha, if_true]
    rw [lookup_map_overwrite_ne c c' v r.attrs h]
    rfl
  · have ha' : r.attrs.any (fun p => p.1 == c) = false := Bool.eq_false_iff.mpr ha
    show (List.lookup c' _).join = colValue r c'
    simp only [ha', Bool.false_eq_true, if_false]
    rw [List.lookup_append]
    have hb : (c' == c) = false := beq_eq_false_iff_ne.mpr h
    simp [colValue, List.lookup, hb]

theorem geom_setCol (c : String) (v : Option String) (r : Row) :
    (setCol c v r).geom = r.geom := rfl

theorem dissolveFirst_attr (d : Dataset) (b k : String)
    (hk : some k ∈ d.rows.map (fun r => colValue r b)) :
    ∃ r ∈ (dissolveFirst b d).rows,
      colValue r b = some k ∧
      ∀ c, ¬ c = b → c ∈ d.cols →
        colValue r c = firstNonNull (groupRows d.rows b k) c := by
  refine ⟨dissolvedRow d b k, ?_, colValue_dissolvedRow_key d b k, ?_⟩
  · exact List.mem_map.mpr ⟨k, (mem_keysList d.rows b k).mpr hk, rfl⟩
  · intro c hc hcol
    exact colValue_dissolvedRow d b k c hc hcol

theorem unionGeoms_dissolveFirst (d : Dataset) (b : String)
    (h : ∀ r ∈ d.rows, (colValue r b).isSome = true) :
    unionGeoms (dissolveFirst b d).rows = unionGeoms d.rows := by
  apply Finset.ext
  intro x
  rw [mem_unionGeoms, mem_unionGeoms]
  constructor
  · rintro ⟨r, hr, hx⟩
    obtain ⟨k, hkmem, rfl⟩ := List.mem_map.mp hr
    obtain ⟨r', hr', hx'⟩ := (mem_unionGeoms (groupRows d.rows b k) x).mp hx
    exact ⟨r', (List.mem_filter.mp hr').1, hx'⟩
  · rintro ⟨r, hr, hx⟩
    obtain ⟨k, hk⟩ := Option.isSome_iff_exists.mp (h r hr)
    refine ⟨dissolvedRow d b k, List.mem_map.mpr ⟨k, ?_, rfl⟩, ?_⟩
    · exact (mem_keysList d.rows b k).mpr (List.mem_map.mpr ⟨r, hr, hk⟩)
    · exact (mem_unionGeoms (groupRows d.rows b k) x).mpr
        ⟨r, List.mem_filter.mpr ⟨hr, by simp [hk]⟩, hx⟩

theorem unionGeoms_deriveAdmin1 (d : Dataset)
    (h : ∀ r ∈ d.rows, (colValue r "ADM1_PCODE").isSome = true) :
    unionGeoms (deriveAdmin1 d).rows = unionGeoms d.rows := by
  show unionGeoms ((dissolveFirst "ADM1_PCODE" d).rows.map
    (selectRow ["ADM0_PCODE", "ADM0_EN", "ADM1_PCODE", "ADM1_EN", "ADM1_TYPE"])) =
    unionGeoms d.rows
  rw [unionGeoms_map
    (selectRow ["ADM0_PCODE", "ADM0_EN", "ADM1_PCODE", "ADM1_EN", "ADM1_TYPE"]) _
    (fun r => rfl)]
  exact unionGeoms_dissolveFirst d _ h

theorem nodup_map_some_keysList (rs : List Row) (b : String) :
    ((keysList rs b).map some).Nodup :=
  (nodup_keysList rs b).map (Option.some_injective _)

theorem filterMap_of_map_some {α : Type} (l : List Row) (g : Row → Option α)
    (ks : List α) (h : l.map g = ks.map some) : l.filterMap g = ks := by
  have h1 : l.filterMap g = (l.map g).filterMap id := by
    rw [List.filterMap_map]
    rfl
  rw [h1, h, List.filterMap_map]
  show ks.filterMap some = ks
  exact List.filterMap_some ks

/-! ## Claim theorems -/

/-- C1 (amended): in every dissolve derivation, the output record of a group
carries, in each non-geometry attribute, the first **non-null** value among
the group's members in source row order (pandas `aggfunc='first'` skips
missing values); whenever the group's first member holds a non-null value
in that attribute — in particular for records sharing a regional code with
differing non-null `ADM1_EN` values — that first member's value wins. -/
theorem dissolve_tiebreak_first_nonnull (d : Dataset) (b k c : String)
    (hk : some k ∈ d.rows.map (fun r => colValue r b))
    (hc : ¬ c = b) (hcol : c ∈ d.cols) :
    (∃ r ∈ (dissolveFirst b d).rows,
      colValue r b = some k ∧
      colValue r c = firstNonNull (groupRows d.rows b k) c ∧
      ∀ r0 tl, groupRows d.rows b k = r0 :: tl → (colValue r0 c).isSome = true →
        colValue r c = colValue r0 c) ∧
    (b = "ADM1_PCODE" → c ∈ ["ADM0_PCODE", "ADM0_EN", "ADM1_EN", "ADM1_TYPE"] →
      ∃ r ∈ (deriveAdmin1 d).rows,
        colValue r "ADM1_PCODE" = some k ∧
        colValue r c = firstNonNull (groupRows d.rows "ADM1_PCODE" k) c) ∧
    (b = "ADM0_PCODE" → c = "ADM0_EN" →
      ∃ r ∈ (deriveAdmin0 d).rows,
        colValue r "ADM0_PCODE" = some k ∧
        colValue r c = firstNonNull (groupRows d.rows "ADM0_PCODE" k) c) := by
  obtain ⟨r, hr, hkey, hvals⟩ := dissolveFirst_attr d b k hk
  have hval := hvals c hc hcol
  refine ⟨⟨r, hr, hkey, hval, ?_⟩, ?_, ?_⟩
  · intro r0 tl hgrp h0
    obtain ⟨v, hv⟩ := Option.isSome_iff_exists.mp h0
    rw [hval, hgrp, hv]
    simp [firstNonNull, List.findSome?_cons, hv]
  · rintro rfl hcmem
    have hcsel : c ∈ ["ADM0_PCODE", "ADM0_EN", "ADM1_PCODE", "ADM1_EN", "ADM1_TYPE"] := by
      simp only [List.mem_cons, List.not_mem_nil, or_false] at hcmem ⊢
      tauto
    refine ⟨selectRow ["ADM0_PCODE", "ADM0_EN", "ADM1_PCODE", "ADM1_EN", "ADM1_TYPE"] r,
      List.mem_map.mpr ⟨r, hr, rfl⟩, ?_, ?_⟩
    · rw [colValue_selectRow _ _ _ (by decide)]
      exact hkey
    · rw [colValue_selectRow _ _ _ hcsel]
      exact hval
  · rintro rfl rfl
    refine ⟨selectRow ["ADM0_PCODE", "ADM0_EN"] r,
      List.mem_map.mpr ⟨r, hr, rfl⟩, ?_, ?_⟩
    · rw [colValue_selectRow _ _ _ (by decide)]
      exact hkey
    · rw [colValue_selectRow _ _ _ (by decide)]
      exact hval

/-- C1 counterexample: in `exNullFirst` both records share regional code
`A`; the first record's `ADM1_EN` is null, and the derived Admin-1 record's
`ADM1_EN` is `X` — the second record's value, not the value held by the
record that comes first in row order. -/
theorem dissolve_tiebreak_counterexample :
    exNullFirst.rows.map (fun r => colValue r "ADM1_PCODE") = [some "A", some "A"] ∧
    (exNullFirst.rows.map (fun r => colValue r "ADM1_EN")).take 1 = [none] ∧
    (deriveAdmin1 exNullFirst).rows.map (fun r => colValue r "ADM1_EN") = [some "X"] ∧
    (deriveAdmin1 exNullFirst).rows.map (fun r => colValue r "ADM1_EN") ≠
      (exNullFirst.rows.map (fun r => colValue r "ADM1_EN")).take 1 := by
  refine ⟨by decide, by decide, by decide, by decide⟩

/-- Witness for C1's amended theorem at `exNullFirst`: region `A`'s output
`ADM1_EN` equals the group's first non-null value. -/
theorem dissolve_tiebreak_first_nonnull_witness :
    ∃ r ∈ (deriveAdmin1 exNullFirst).rows,
      colValue r "ADM1_PCODE" = some "A" ∧
      colValue r "ADM1_EN" =
        firstNonNull (groupRows exNullFirst.rows "ADM1_PCODE" "A") "ADM1_EN" :=
  (dissolve_tiebreak_first_nonnull exNullFirst "ADM1_PCODE" "A" "ADM1_EN"
    (by decide) (by decide) (by decide)).2.1 rfl (by decide)

/-- C9 (confirmed): the `first` aggregation of a dissolve group skips
missing values — if the group's first member is null in column `c`, the
output value is the first non-null value among the later members in row
order, and it is null only when every member of the group is null in `c`. -/
theorem dissolve_first_skips_null (d : Dataset) (b k c : String) (r0 : Row)
    (tl : List Row) (hgrp : groupRows d.rows b k = r0 :: tl)
    (h0 : colValue r0 c = none) (hc : ¬ c = b) (hcol : c ∈ d.cols) :
    ∃ r ∈ (dissolveFirst b d).rows,
      colValue r b = some k ∧
      colValue r c = tl.findSome? (fun r' => colValue r' c) ∧
      (colValue r c = none → ∀ r' ∈ groupRows d.rows b k, colValue r' c = none) := by
  have hr0 : r0 ∈ groupRows d.rows b k := by
    rw [hgrp]
    exact List.mem_cons_self r0 tl
  have hr0' := List.mem_filter.mp hr0
  have hkey0 : colValue r0 b = some k := by
    simpa using hr0'.2
  have hk : some k ∈ d.rows.map (fun r => colValue r b) :=
    List.mem_map.mpr ⟨r0, hr0'.1, hkey0⟩
  obtain ⟨r, hr, hkey, hvals⟩ := dissolveFirst_attr d b k hk
  have hval := hvals c hc hcol
  refine ⟨r, hr, hkey, ?_, ?_⟩
  · rw [hval, hgrp]
    simp [firstNonNull, List.findSome?_cons, h0]
  · intro hnone r' hr'
    rw [hval] at hnone
    unfold firstNonNull at hnone
    exact (List.findSome?_eq_none_iff.mp hnone) r' hr'

/-- Witness for C9 at `exSkipNull`: group `B`'s first member is null in
`ADM1_EN`, and the output takes `Y` from the later member. -/
theorem dissolve_first_skips_null_witness :
    ∃ r ∈ (dissolveFirst "ADM1_PCODE" exSkipNull).rows,
      colValue r "ADM1_PCODE" = some "B" ∧
      colValue r "ADM1_EN" = [rowB2].findSome? (fun r' => colValue r' "ADM1_EN") ∧
      (colValue r "ADM1_EN" = none →
        ∀ r' ∈ groupRows exSkipNull.rows "ADM1_PCODE" "B",
          colValue r' "ADM1_EN" = none) :=
  dissolve_first_skips_null exSkipNull "ADM1_PCODE" "B" "ADM1_EN" rowB1 [rowB2]
    (by decide) (by decide) (by decide) (by decide)

/-- C2 (amended): `deriveAdmin1` produces exactly one output record per
distinct non-null regional code present in the input (its key column is
duplicate-free, a string code appears among the output keys exactly when it
appears in the input, and no output record has a null key); the union of
the output geometries equals the union of the input geometries provided
every input record's `ADM1_PCODE` is non-null (rows with a null key are
silently dropped by the group-by). -/
theorem deriveAdmin1_one_per_code_union (d : Dataset) :
    ((deriveAdmin1 d).rows.map (fun r => colValue r "ADM1_PCODE")).Nodup ∧
    (∀ k : String,
      some k ∈ (deriveAdmin1 d).rows.map (fun r => colValue r "ADM1_PCODE") ↔
        some k ∈ d.rows.map (fun r => colValue r "ADM1_PCODE")) ∧
    none ∉ (deriveAdmin1 d).rows.map (fun r => colValue r "ADM1_PCODE") ∧
    ((∀ r ∈ d.rows, (colValue r "ADM1_PCODE").isSome = true) →
      unionGeoms (deriveAdmin1 d).rows = unionGeoms d.rows) := by
  rw [map_key_deriveAdmin1 d]
  refine ⟨nodup_map_some_keysList _ _, ?_, ?_, unionGeoms_deriveAdmin1 d⟩
  · intro k
    constructor
    · intro hmem
      obtain ⟨a, ha, hak⟩ := List.mem_map.mp hmem
      obtain rfl := Option.some_injective _ hak
      exact (mem_keysList d.rows _ a).mp ha
    · intro hmem
      exact List.mem_map.mpr ⟨k, (mem_keysList d.rows _ k).mpr hmem, rfl⟩
  · intro hmem
    obtain ⟨a, _, hak⟩ := List.mem_map.mp hmem
    simp at hak

/-- C2 counterexample: in `exNullKey` the single record's `ADM1_PCODE` is
null, the dissolve drops it, and the union of the Admin-1 output geometries
(empty) differs from the union of the input geometries. -/
theorem deriveAdmin1_union_counterexample :
    unionGeoms (deriveAdmin1 exNullKey).rows = (∅ : Geom) ∧
    unionGeoms exNullKey.rows = ({0} : Geom) ∧
    unionGeoms (deriveAdmin1 exNullKey).rows ≠ unionGeoms exNullKey.rows := by
  refine ⟨by decide, by decide, by decide⟩

/-- Witness for C2's amended theorem at `exTwoRegions`: the membership
equivalence for code `A` and the union preservation hold. -/
theorem deriveAdmin1_one_per_code_union_witness :
    (some "A" ∈ (deriveAdmin1 exTwoRegions).rows.map (fun r => colValue r "ADM1_PCODE") ↔
      some "A" ∈ exTwoRegions.rows.map (fun r => colValue r "ADM1_PCODE")) ∧
    unionGeoms (deriveAdmin1 exTwoRegions).rows = unionGeoms exTwoRegions.rows :=
  ⟨(deriveAdmin1_one_per_code_union exTwoRegions).2.1 "A",
   (deriveAdmin1_one_per_code_union exTwoRegions).2.2.2 (by decide)⟩

/-- C3 (amended): `deriveAdmin0` produces one record per distinct non-null
national code (never raising an error), and when the input has a single
distinct national code **and** no record's `ADM0_PCODE` is null, it
produces exactly one record whose geometry is the union of all input
geometries; a record with a null `ADM0_PCODE` is silently dropped from the
dissolve. -/
theorem deriveAdmin0_single_nation (d : Dataset) :
    (deriveAdmin0 d).rows.length =
      ((d.rows.filterMap (fun r => colValue r "ADM0_PCODE")).dedup).length ∧
    (∀ c0 : String,
      (d.rows.filterMap (fun r => colValue r "ADM0_PCODE")).dedup = [c0] →
      (∀ r ∈ d.rows, (colValue r "ADM0_PCODE").isSome = true) →
      (deriveAdmin0 d).rows.map Row.geom = [unionGeoms d.rows]) := by
  constructor
  · show (((keysList d.rows "ADM0_PCODE").map
      (fun k => dissolvedRow d "ADM0_PCODE" k)).map
      (selectRow ["ADM0_PCODE", "ADM0_EN"])).length = _
    rw [List.length_map, List.length_map]
    exact length_keysList d.rows "ADM0_PCODE"
  · intro c0 hded hall
    have hkeys : keysList d.rows "ADM0_PCODE" = [c0] := by
      unfold keysList
      rw [hded]
      rfl
    have hgrp : groupRows d.rows "ADM0_PCODE" c0 = d.rows := by
      apply List.filter_eq_self.mpr
      intro r hr
      obtain ⟨k, hk⟩ := Option.isSome_iff_exists.mp (hall r hr)
      have hkmem : k ∈ (d.rows.filterMap (fun r => colValue r "ADM0_PCODE")).dedup :=
        List.mem_dedup.mpr (List.mem_filterMap.mpr ⟨r, hr, hk⟩)
      rw [hded] at hkmem
      have hkc : k = c0 := by simpa using hkmem
      simp [hk, hkc]
    show (((keysList d.rows "ADM0_PCODE").map
      (fun k => dissolvedRow d "ADM0_PCODE" k)).map
      (selectRow ["ADM0_PCODE", "ADM0_EN"])).map Row.geom = [unionGeoms d.rows]
    rw [hkeys]
    show [unionGeoms (groupRows d.rows "ADM0_PCODE" c0)] = [unionGeoms d.rows]
    rw [hgrp]

/-- C3 counterexample: `exNullNational` has the single distinct national
code `MG`, yet the Admin-0 output's only record misses the geometry of the
record whose `ADM0_PCODE` is null, so its geometry is not the union of all
input geometries. -/
theorem deriveAdmin0_counterexample :
    (exNullNational.rows.filterMap (fun r => colValue r "ADM0_PCODE")).dedup = ["MG"] ∧
    (deriveAdmin0 exNullNational).rows.length = 1 ∧
    (deriveAdmin0 exNullNational).rows.map Row.geom ≠ [unionGeoms exNullNational.rows] := by
  refine ⟨by decide, by decide, by decide⟩

/-- Witness for C3's amended theorem at `exOneNation`: one output record
whose geometry is the union of both districts. -/
theorem deriveAdmin0_single_nation_witness :
    (deriveAdmin0 exOneNation).rows.map Row.geom = [unionGeoms exOneNation.rows] :=
  (deriveAdmin0_single_nation exOneNation).2 "MG" (by decide) (by decide)

/-- C4 (confirmed): `deriveAdmin2` performs no dissolve — one output record
per input record, in the same row order, with each geometry unchanged, the
attribute schema restricted to the hierarchical Admin-2 column subset, and
each kept column's value unchanged. -/
theorem deriveAdmin2_passthrough (d : Dataset) :
    (deriveAdmin2 d).rows.length = d.rows.length ∧
    (deriveAdmin2 d).cols = adm2Cols ∧
    ∀ i : Nat,
      ((deriveAdmin2 d).rows[i]?).map Row.geom = (d.rows[i]?).map Row.geom ∧
      ((deriveAdmin2 d).rows[i]?).map (fun r => r.attrs.map Prod.fst) =
        (d.rows[i]?).map (fun _ => adm2Cols) ∧
      ((deriveAdmin2 d).rows[i]?).map (fun r => adm2Cols.map (fun c => colValue r c)) =
        (d.rows[i]?).map (fun r => adm2Cols.map (fun c => colValue r c)) := by
  refine ⟨by show (d.rows.map (selectRow adm2Cols)).length = _; rw [List.length_map],
    rfl, ?_⟩
  intro i
  have hrows : (deriveAdmin2 d).rows = d.rows.map (selectRow adm2Cols) := rfl
  rw [hrows, List.getElem?_map]
  cases hd : d.rows[i]? with
  | none => exact ⟨rfl, rfl, rfl⟩
  | some r =>
    refine ⟨rfl, ?_, ?_⟩
    · rw [Option.map_map, Option.map_some', Option.map_some']
      show some ((selectRow adm2Cols r).attrs.map Prod.fst) = some adm2Cols
      rw [attrs_keys_selectRow]
    · rw [Option.map_map, Option.map_some', Option.map_some']
      exact congrArg some
        (List.map_congr_left (fun c hc => colValue_selectRow adm2Cols r c hc))

/-- C5 (confirmed): `deriveCombined` produces the records of the three
levels concatenated — Admin 0 first, then Admin 1, then Admin 2, each block
in its own internal order — with a total length equal to the sum of the
three lengths, and every output record tagged `admLevel` 0, 1 or 2
according to the dataset it came from. -/
theorem deriveCombined_order_tags (a0 a1 a2 : Dataset) :
    (deriveCombined a0 a1 a2).rows.length =
      a0.rows.length + a1.rows.length + a2.rows.length ∧
    (∀ i, i < a0.rows.length →
      (deriveCombined a0 a1 a2).rows[i]? =
        (a0.rows[i]?).map (setCol "admLevel" (some "0")) ∧
      ((deriveCombined a0 a1 a2).rows[i]?).map (fun r => colValue r "admLevel") =
        some (some "0")) ∧
    (∀ i, i < a1.rows.length →
      (deriveCombined a0 a1 a2).rows[a0.rows.length + i]? =
        (a1.rows[i]?).map (setCol "admLevel" (some "1")) ∧
      ((deriveCombined a0 a1 a2).rows[a0.rows.length + i]?).map
        (fun r => colValue r "admLevel") = some (some "1")) ∧
    (∀ i, i < a2.rows.length →
      (deriveCombined a0 a1 a2).rows[a0.rows.length + a1.rows.length + i]? =
        (a2.rows[i]?).map (setCol "admLevel" (some "2")) ∧
      ((deriveCombined a0 a1 a2).rows[a0.rows.length + a1.rows.length + i]?).map
        (fun r => colValue r "admLevel") = some (some "2")) := by
  have hrows : (deriveCombined a0 a1 a2).rows =
      a0.rows.map (setCol "admLevel" (some "0")) ++
        (a1.rows.map (setCol "admLevel" (some "1")) ++
          a2.rows.map (setCol "admLevel" (some "2"))) := by
    show a0.rows.map (setCol "admLevel" (some "0")) ++
        a1.rows.map (setCol "admLevel" (some "1")) ++
        a2.rows.map (setCol "admLevel" (some "2")) = _
    rw [List.append_assoc]
  refine ⟨by rw [hrows]; simp [Nat.add_assoc], ?_, ?_, ?_⟩
  · intro i hi
    have h0 : (deriveCombined a0 a1 a2).rows[i]? =
        (a0.rows[i]?).map (setCol "admLevel" (some "0")) := by
      rw [hrows, List.getElem?_append_left (by rw [List.length_map]; exact hi),
        List.getElem?_map]
    refine ⟨h0, ?_⟩
    rw [h0, List.getElem?_eq_getElem hi]
    simp only [Option.map_some']
    rw [colValue_setCol_self]
  · intro i hi
    have h1 : (deriveCombined a0 a1 a2).rows[a0.rows.length + i]? =
        (a1.rows[i]?).map (setCol "admLevel" (some "1")) := by
      rw [hrows, List.getElem?_append_right (by rw [List.length_map]; omega),
        List.length_map]
      have e1 : a0.rows.length + i - a0.rows.length = i := by omega
      rw [e1, List.getElem?_append_left (by rw [List.length_map]; exact hi),
        List.getElem?_map]
    refine ⟨h1, ?_⟩
    rw [h1, List.getElem?_eq_getElem hi]
    simp only [Option.map_some']
    rw [colValue_setCol_self]
  · intro i hi
    have h2 : (deriveCombined a0 a1 a2).rows[a0.rows.length + a1.rows.length + i]? =
        (a2.rows[i]?).map (setCol "admLevel" (some "2")) := by
      rw [hrows, List.getElem?_append_right (by rw [List.length_map]; omega),
        List.length_map]
      have e1 : a0.rows.length + a1.rows.length + i - a0.rows.length =
          a1.rows.length + i := by omega
      rw [e1, List.getElem?_append_right (by rw [List.length_map]; omega),
        List.length_map]
      have e2 : a1.rows.length + i - a1.rows.length = i := by omega
      rw [e2, List.getElem?_map]
    refine ⟨h2, ?_⟩
    rw [h2, List.getElem?_eq_getElem hi]
    simp only [Option.map_some']
    rw [colValue_setCol_self]

/-- Witness for C5 at three one-record datasets: the Admin-0 record comes
first, and the records at offsets 1 and 2 carry `admLevel` 1 and 2. -/
theorem deriveCombined_order_tags_witness :
    (deriveCombined wAdm0 wAdm1 wAdm2).rows[0]? =
      (wAdm0.rows[0]?).map (setCol "admLevel" (some "0")) ∧
    ((deriveCombined wAdm0 wAdm1 wAdm2).rows[1]?).map
      (fun r => colValue r "admLevel") = some (some "1") ∧
    ((deriveCombined wAdm0 wAdm1 wAdm2).rows[2]?).map
      (fun r => colValue r "admLevel") = some (some "2") :=
  ⟨((deriveCombined_order_tags wAdm0 wAdm1 wAdm2).2.1 0 (by decide)).1,
   ((deriveCombined_order_tags wAdm0 wAdm1 wAdm2).2.2.1 0 (by decide)).2,
   ((deriveCombined_order_tags wAdm0 wAdm1 wAdm2).2.2.2 0 (by decide)).2⟩

/-- C6 (confirmed): the reprojection is applied once, to the source
dataset, before any derivation (the Admin-2 geometries are exactly the
transformed source geometries), and all four derived datasets carry the
CRS `EPSG:4326`. -/
theorem reproject_once_crs_invariant (src : Dataset) (transform : Geom → Geom) :
    (buildLevels src transform).adm0.crs = "EPSG:4326" ∧
    (buildLevels src transform).adm1.crs = "EPSG:4326" ∧
    (buildLevels src transform).adm2.crs = "EPSG:4326" ∧
    (buildLevels src transform).all_levels.crs = "EPSG:4326" ∧
    (buildLevels src transform).adm2.rows.map Row.geom =
      src.rows.map (fun r => transform r.geom) := by
  refine ⟨rfl, rfl, rfl, rfl, ?_⟩
  show ((src.rows.map (fun r => Row.mk r.attrs (transform r.geom))).map
    (selectRow adm2Cols)).map Row.geom = src.rows.map (fun r => transform r.geom)
  rw [List.map_map, List.map_map]
  exact List.map_congr_left (fun r _ => rfl)

/-- C7 (confirmed): after any terminating run — normal completion or an
abort at any stage — no path inside the scratch directory still exists:
the temporary directory and all its contents are removed when the `with`
block exits. -/
theorem tempdir_removed_after_run (tempDir : String) (env : Env) (fs : FS)
    (p : String) (hp : pathInDir tempDir p = true) :
    pathMem (runMain tempDir env fs).2 p = false := by
  show pathMem (removeTree tempDir (mainBody env tempDir (tempDir :: fs)).2) p = false
  unfold pathMem removeTree
  rw [← Bool.not_eq_true]
  intro hmem
  have hfil := (List.mem_filter.mp (List.elem_iff.mp hmem)).2
  rw [hp] at hfil
  cases hfil

/-- Witness for C7: with a missing input archive the run aborts at the
first stage, and a path under the scratch directory does not survive. -/
theorem tempdir_removed_after_run_witness :
    pathInDir "tmp" "tmp/x" = true ∧
    pathMem (runMain "tmp" envMissingArchive []).2 "tmp/x" = false :=
  ⟨by decide,
   tempdir_removed_after_run "tmp" envMissingArchive [] "tmp/x" (by decide)⟩

/-- C8 (confirmed): the packager never fails on an absent component file —
an entry appears in the output archive exactly when the corresponding file
exists in the scratch directory, so a missing file (e.g. a `.shp.xml`
sidecar) is silently omitted and packaging always completes. -/
theorem packager_skips_missing (tempDir : String) (fs : FS) (entry : String) :
    entry ∈ packageZip tempDir fs ↔
      ∃ base ∈ adminBases, ∃ ext ∈ zipExts,
        entry = base ++ ext ∧
        pathMem fs (tempDir ++ "/" ++ base ++ ext) = true := by
  unfold packageZip
  rw [List.mem_flatMap]
  constructor
  · rintro ⟨base, hb, hmem⟩
    obtain ⟨ext, he, hif⟩ := List.mem_filterMap.mp hmem
    by_cases hps : pathMem fs (tempDir ++ "/" ++ base ++ ext) = true
    · rw [if_pos hps] at hif
      obtain rfl := Option.some_injective _ hif
      exact ⟨base, hb, ext, he, rfl, hps⟩
    · rw [if_neg hps] at hif
      cases hif
  · rintro ⟨base, hb, ext, he, rfl, hps⟩
    exact ⟨base, hb, List.mem_filterMap.mpr ⟨ext, he, by rw [if_pos hps]⟩⟩

/-- C10 (confirmed): the Admin-0 and Admin-1 outputs are ordered by
ascending dissolve key (the pandas group-by sorts the groups), and the
Admin-0 and Admin-1 blocks inside the combined ALL dataset keep exactly
that key order. -/
theorem derived_sorted_by_key (src : Dataset) (transform : Geom → Geom) :
    List.Sorted (fun a c => a ≤ c)
      ((buildLevels src transform).adm0.rows.filterMap
        (fun r => colValue r "ADM0_PCODE")) ∧
    List.Sorted (fun a c => a ≤ c)
      ((buildLevels src transform).adm1.rows.filterMap
        (fun r => colValue r "ADM1_PCODE")) ∧
    ((buildLevels src transform).all_levels.rows.take
        (buildLevels src transform).adm0.rows.length).filterMap
      (fun r => colValue r "ADM0_PCODE") =
      (buildLevels src transform).adm0.rows.filterMap
        (fun r => colValue r "ADM0_PCODE") ∧
    (((buildLevels src transform).all_levels.rows.drop
        (buildLevels src transform).adm0.rows.length).take
        (buildLevels src transform).adm1.rows.length).filterMap
      (fun r => colValue r "ADM1_PCODE") =
      (buildLevels src transform).adm1.rows.filterMap
        (fun r => colValue r "ADM1_PCODE") := by
  refine ⟨?_, ?_, ?_, ?_⟩
  · show List.Sorted (fun a c => a ≤ c)
      ((deriveAdmin0 (to_crs transform "EPSG:4326" src)).rows.filterMap
        (fun r => colValue r "ADM0_PCODE"))
    rw [filterMap_of_map_some _ _ _ (map_key_deriveAdmin0 _)]
    exact sorted_keysList _ _
  · show List.Sorted (fun a c => a ≤ c)
      ((deriveAdmin1 (to_crs transform "EPSG:4326" src)).rows.filterMap
        (fun r => colValue r "ADM1_PCODE"))
    rw [filterMap_of_map_some _ _ _ (map_key_deriveAdmin1 _)]
    exact sorted_keysList _ _
  · show (((deriveAdmin0 (to_crs transform "EPSG:4326" src)).rows.map
        (setCol "admLevel" (some "0")) ++
        (deriveAdmin1 (to_crs transform "EPSG:4326" src)).rows.map
          (setCol "admLevel" (some "1")) ++
        (deriveAdmin2 (to_crs transform "EPSG:4326" src)).rows.map
          (setCol "admLevel" (some "2"))).take
        (deriveAdmin0 (to_crs transform "EPSG:4326" src)).rows.length).filterMap
      (fun r => colValue r "ADM0_PCODE") =
      (deriveAdmin0 (to_crs transform "EPSG:4326" src)).rows.filterMap
        (fun r => colValue r "ADM0_PCODE")
    rw [List.append_assoc,
      List.take_left' (List.length_map _ (setCol "admLevel" (some "0"))),
      List.filterMap_map]
    exact List.filterMap_congr
      (fun r _ => congrArg (fun r' => colValue r' "ADM0_PCODE") rfl |>.trans
        (colValue_setCol_ne "admLevel" "ADM0_PCODE" (some "0") r (by decide)))
  · show ((((deriveAdmin0 (to_crs transform "EPSG:4326" src)).rows.map
        (setCol "admLevel" (some "0")) ++
        (deriveAdmin1 (to_crs transform "EPSG:4326" src)).rows.map
          (setCol "admLevel" (some "1")) ++
        (deriveAdmin2 (to_crs transform "EPSG:4326" src)).rows.map
          (setCol "admLevel" (some "2"))).drop
        (deriveAdmin0 (to_crs transform "EPSG:4326" src)).rows.length).take
        (deriveAdmin1 (to_crs transform "EPSG:4326" src)).rows.length).filterMap
      (fun r => colValue r "ADM1_PCODE") =
      (deriveAdmin1 (to_crs transform "EPSG:4326" src)).rows.filterMap
        (fun r => colValue r "ADM1_PCODE")
    rw [List.append_assoc,
      List.drop_left' (List.length_map _ (setCol "admLevel" (some "0"))),
      List.take_left' (List.length_map _ (setCol "admLevel" (some "1"))),
      List.filterMap_map]
    exact List.filterMap_congr
      (fun r _ => colValue_setCol_ne "admLevel" "ADM1_PCODE" (some "1") r (by decide))
